import Mathlib

/-!
# Failure recovery of a build record (`builder/recovery.go`)

A shallow embedding of the error-recovery action of the build reconciliation
loop, and theorems about what it does to a build record.

Conventions of the embedding:

* The Go method `Handle` mutates the record behind its pointer argument and
  returns that pointer (or nil) together with an error.  Here `Handle` is a pure
  function returning a `HandleResult`: the contents of the argument record when
  the call returns, the returned pointer (`none` for nil, otherwise the
  contents of the record it points to) and the returned error.
* The wall clock is an explicit argument `now`: the reading taken by the call
  (`metav1.Now()`, `time.Since`).  A call reads one instant.
* Instants are whole nanoseconds counted from the zero instant of `time.Time`,
  so `IsZero` is equality with `0`.  Durations are nanosecond counts taken in
  exact rational arithmetic; `Seconds` divides by `10^9`.  The rounding of the
  `float64` values and the saturation of `time.Time.Sub` are not modelled.
* The unused `context.Context` argument and the log line are left out.
-/

namespace builder

/-! ## Time -/

/-- An instant (`time.Time`, wrapped by `metav1.Time`): nanoseconds since the
zero instant. -/
abbrev Time := Int

/-- A span of time (`time.Duration`), in nanoseconds. -/
abbrev Duration := ℚ

/-- The constant `time.Second`. -/
def Second : Duration := 1000000000

/-- The constant `time.Minute`. -/
def Minute : Duration := 60 * Second

/-- The method `time.Time.IsZero`: the instant is the zero instant. -/
def Time.IsZero (t : Time) : Bool := decide (t = 0)

/-- The function `time.Since` evaluated when the clock reads `now`. -/
def Since (now t : Time) : Duration := ((now - t : Int) : ℚ)

/-- The method `time.Duration.Seconds`: the span as a number of seconds. -/
def Duration.Seconds (d : Duration) : ℚ := d / 1000000000

/-! ## The backoff calculator -/

/-- Modelled from the spec: the configuration of the backoff calculator
(`backoff.Backoff` of the imported package `github.com/jpillora/backoff`, which
is not among the sources).  The fields are those set by
`newErrorRecoveryAction`. -/
structure Backoff where
  Factor : ℚ
  Jitter : Bool
  Min : Duration
  Max : Duration

/-- Modelled from the spec: the delay `d(n)` of the backoff calculator
(`backoff.Backoff.ForAttempt`, not among the sources), for a calculator
without jitter: `d(n) = min(max, min·factor^n)`.  The attempt index is the
integer the caller converts to `float64`. -/
def Backoff.ForAttempt (b : Backoff) (attempt : Int) : Duration :=
  min b.Max (b.Min * b.Factor ^ attempt)

/-! ## The build record -/

/-- Modelled from the spec: the phase of a build (`api.BuildPhase`, a string
type declared in the `api` package, which is not among the sources). -/
abbrev BuildPhase := String

/-- Modelled from the spec: phase `Initialization` (`api` package). -/
def BuildPhaseInitialization : BuildPhase := "Initialization"
/-- Modelled from the spec: phase `Scheduling` (`api` package). -/
def BuildPhaseScheduling : BuildPhase := "Scheduling"
/-- Modelled from the spec: phase `Running` (`api` package). -/
def BuildPhaseRunning : BuildPhase := "Running"
/-- Modelled from the spec: phase `Completed` (`api` package). -/
def BuildPhaseCompleted : BuildPhase := "Completed"
/-- Modelled from the spec: phase `Failed`, the recoverable one (`api` package). -/
def BuildPhaseFailed : BuildPhase := "Failed"
/-- Modelled from the spec: phase `Error`, the terminal one (`api` package). -/
def BuildPhaseError : BuildPhase := "Error"

/-- Modelled from the spec: recovery progress of a failure episode
(`api.FailureRecovery`, not among the sources).  `AttemptTime` is the zero
instant until the first retry. -/
structure FailureRecovery where
  Attempt : Int
  AttemptMax : Int
  AttemptTime : Time
  deriving DecidableEq, Repr

/-- Modelled from the spec: the failure info of a build (`api.Failure`, not
among the sources). -/
structure Failure where
  Reason : String
  Time : Time
  Recovery : FailureRecovery
  deriving DecidableEq, Repr

/-- Modelled from the spec: the status of a build (`api.BuildStatus`, not among
the sources): phase, last error, and the failure info (a pointer that may be
nil). -/
structure BuildStatus where
  Phase : BuildPhase
  Error : String
  Failure : Option Failure
  deriving DecidableEq, Repr

/-- Modelled from the spec: the build record (`api.Build`, not among the
sources). -/
structure Build where
  Status : BuildStatus
  deriving DecidableEq, Repr

/-! ## The recovery action -/

/-- The struct `errorRecoveryAction`: the action and its backoff policy. -/
structure errorRecoveryAction where
  backOff : Backoff

/-- The constructor `newErrorRecoveryAction`. -/
def newErrorRecoveryAction : errorRecoveryAction :=
  { backOff :=
      { Min := 5 * Second
        Max := 1 * Minute
        Factor := 2
        Jitter := false } }

/-- The method `errorRecoveryAction.Name`. -/
def errorRecoveryAction.Name (_action : errorRecoveryAction) : String :=
  "error-recovery"

/-- The method `errorRecoveryAction.CanHandle`. -/
def errorRecoveryAction.CanHandle (_action : errorRecoveryAction) (build : Build) : Bool :=
  decide (build.Status.Phase = BuildPhaseFailed)

/-- What a call of `Handle` leaves behind: the argument record after the call
and the two returned values. -/
structure HandleResult where
  /-- The record behind the argument pointer when the call returns. -/
  build : Build
  /-- The returned pointer: `none` is nil. -/
  ret : Option Build
  /-- The returned error: `none` is nil. -/
  err : Option String
  deriving DecidableEq, Repr

/-- The local variable `lastAttempt` of `Handle`: the time of the last retry,
or the time of the failure when there was no retry yet. -/
def lastAttempt (failure : Failure) : Time :=
  if failure.Recovery.AttemptTime.IsZero then failure.Time
  else failure.Recovery.AttemptTime

/-- The method `errorRecoveryAction.Handle`, called when the clock reads `now`. -/
def errorRecoveryAction.Handle (action : errorRecoveryAction) (now : Time)
    (build : Build) : HandleResult :=
  match build.Status.Failure with
  | none =>
    let build : Build :=
      { build with Status := { build.Status with
          Failure := some
            { Reason := build.Status.Error
              Time := now
              Recovery := { Attempt := 0, AttemptMax := 5, AttemptTime := 0 } } } }
    { build := build, ret := some build, err := none }
  | some failure =>
    if failure.Recovery.Attempt ≥ failure.Recovery.AttemptMax then
      let build : Build :=
        { build with Status := { build.Status with Phase := BuildPhaseError } }
      { build := build, ret := some build, err := none }
    else
      let elapsed := (Since now (lastAttempt failure)).Seconds
      let elapsedMin := (action.backOff.ForAttempt failure.Recovery.Attempt).Seconds
      if elapsed < elapsedMin then
        { build := build, ret := none, err := none }
      else
        let build : Build :=
          { build with Status := { build.Status with
              Phase := BuildPhaseInitialization
              Failure := some { failure with
                Recovery := { failure.Recovery with
                  Attempt := failure.Recovery.Attempt + 1
                  AttemptTime := now } } } }
        { build := build, ret := some build, err := none }

/-- Successive calls of `Handle` on one record, one per clock reading: each call
works on the record as the previous call left it.  The results are listed in
call order. -/
def HandleRun (action : errorRecoveryAction) : List Time → Build → List HandleResult
  | [], _ => []
  | now :: clock, build =>
    let r := action.Handle now build
    r :: HandleRun action clock r.build

/-! ## The reconciliation loop around the action -/

/-- Modelled from the spec: one pass of the reconciliation loop over this
action when the clock reads `t` (the dispatcher is not among the sources): the
record is left as it is when `CanHandle` refuses it or `Handle` returns the
no-op signal, and is otherwise the record `Handle` returns. -/
def step (action : errorRecoveryAction) (t : Time) (r : Build) : Build :=
  if action.CanHandle r then
    match (action.Handle t r).ret with
    | none => r
    | some updated => updated
  else r

/-- Modelled from the spec: a step of a run over one build record: a call of
`Handle` when the clock reads `now`, or a step of the environment that sets the
phase and touches nothing else (the build actions and the dispatcher are not
among the sources). -/
inductive RunStep where
  | handle (now : Time)
  | setPhase (phase : BuildPhase)
  deriving DecidableEq, Repr

/-- The record after one step of a run. -/
def RunStep.apply (action : errorRecoveryAction) (s : RunStep) (build : Build) : Build :=
  match s with
  | .handle now => (action.Handle now build).build
  | .setPhase phase => { build with Status := { build.Status with Phase := phase } }

/-- The record at the end of a run. -/
def Run (action : errorRecoveryAction) : List RunStep → Build → Build
  | [], build => build
  | s :: steps, build => Run action steps (s.apply action build)

/-- The `Handle` calls of a run in call order, each as the record it was called
on and what it left behind. -/
def RunCalls (action : errorRecoveryAction) :
    List RunStep → Build → List (Build × HandleResult)
  | [], _ => []
  | .handle now :: steps, build =>
    (build, action.Handle now build)
      :: RunCalls action steps (action.Handle now build).build
  | .setPhase phase :: steps, build =>
    RunCalls action steps { build with Status := { build.Status with Phase := phase } }

/-- The call returned a record, and its phase is `Initialization`. -/
def returnsInitialization (r : HandleResult) : Bool :=
  match r.ret with
  | some build => decide (build.Status.Phase = BuildPhaseInitialization)
  | none => false

/-- The call raised the attempt count of the failure info it was called on. -/
def incrementsAttempt (c : Build × HandleResult) : Bool :=
  match c.1.Status.Failure, c.2.build.Status.Failure with
  | some before, some after => decide (before.Recovery.Attempt < after.Recovery.Attempt)
  | _, _ => false

/-- The sum `d(0) + ... + d(k-1)` of the backoff delays before attempt `k`. -/
def totalWait (b : Backoff) : Nat → Duration
  | 0 => 0
  | k + 1 => totalWait b k + b.ForAttempt (k : Int)

/-- The state of a failure episode under the default policy after `n` retries:
the cap is 5, the attempt count is `n`, at most 5; before the first retry the
attempt time is unset, afterwards it is set and at least the summed delays of
the retries after the failure time. -/
def EpisodeAfter (failure : Failure) (n : Nat) : Prop :=
  failure.Recovery.AttemptMax = 5 ∧
  failure.Recovery.Attempt = (n : Int) ∧
  n ≤ 5 ∧
  (n = 0 → failure.Recovery.AttemptTime = 0) ∧
  (1 ≤ n → failure.Recovery.AttemptTime ≠ 0 ∧
    (failure.Time : ℚ) + totalWait newErrorRecoveryAction.backOff n
      ≤ (failure.Recovery.AttemptTime : ℚ))

/-! ## The branches of `Handle` -/

/-- Comparing two spans in seconds is comparing them in nanoseconds. -/
theorem Seconds_lt_Seconds (d e : Duration) : d.Seconds < e.Seconds ↔ d < e := by
  unfold Duration.Seconds
  exact div_lt_div_iff_of_pos_right (by norm_num)

/-- Branch 1 of `Handle`: no failure info yet, the episode is recorded. -/
theorem Handle_create (action : errorRecoveryAction) (now : Time) (build : Build)
    (h : build.Status.Failure = none) :
    action.Handle now build =
      { build := ⟨⟨build.Status.Phase, build.Status.Error,
          some ⟨build.Status.Error, now, ⟨0, 5, 0⟩⟩⟩⟩
        ret := some ⟨⟨build.Status.Phase, build.Status.Error,
          some ⟨build.Status.Error, now, ⟨0, 5, 0⟩⟩⟩⟩
        err := none } := by
  unfold errorRecoveryAction.Handle
  rw [h]

/-- Branch 2 of `Handle`: the attempts are used up, the phase becomes `Error`. -/
theorem Handle_giveUp (action : errorRecoveryAction) (now : Time) (build : Build)
    (failure : Failure) (h : build.Status.Failure = some failure)
    (hmax : failure.Recovery.AttemptMax ≤ failure.Recovery.Attempt) :
    action.Handle now build =
      { build := ⟨⟨BuildPhaseError, build.Status.Error, some failure⟩⟩
        ret := some ⟨⟨BuildPhaseError, build.Status.Error, some failure⟩⟩
        err := none } := by
  unfold errorRecoveryAction.Handle
  rw [h]
  simp only [ge_iff_le, if_pos hmax]
  rw [← h]

/-- Branch 3 of `Handle`: the backoff delay has not passed, nothing is done. -/
theorem Handle_wait (action : errorRecoveryAction) (now : Time) (build : Build)
    (failure : Failure) (h : build.Status.Failure = some failure)
    (hmax : failure.Recovery.Attempt < failure.Recovery.AttemptMax)
    (hwait : Since now (lastAttempt failure)
      < action.backOff.ForAttempt failure.Recovery.Attempt) :
    action.Handle now build = { build := build, ret := none, err := none } := by
  unfold errorRecoveryAction.Handle
  rw [h]
  have hs := (Seconds_lt_Seconds _ _).mpr hwait
  simp only [ge_iff_le, if_neg (not_le.mpr hmax), if_pos hs]

/-- Branch 4 of `Handle`: the backoff delay has passed, the build is restarted. -/
theorem Handle_retry (action : errorRecoveryAction) (now : Time) (build : Build)
    (failure : Failure) (h : build.Status.Failure = some failure)
    (hmax : failure.Recovery.Attempt < failure.Recovery.AttemptMax)
    (hwait : action.backOff.ForAttempt failure.Recovery.Attempt
      ≤ Since now (lastAttempt failure)) :
    action.Handle now build =
      { build := ⟨⟨BuildPhaseInitialization, build.Status.Error,
          some ⟨failure.Reason, failure.Time,
            ⟨failure.Recovery.Attempt + 1, failure.Recovery.AttemptMax, now⟩⟩⟩⟩
        ret := some ⟨⟨BuildPhaseInitialization, build.Status.Error,
          some ⟨failure.Reason, failure.Time,
            ⟨failure.Recovery.Attempt + 1, failure.Recovery.AttemptMax, now⟩⟩⟩⟩
        err := none } := by
  unfold errorRecoveryAction.Handle
  rw [h]
  have hs : ¬ (Since now (lastAttempt failure)).Seconds
      < (action.backOff.ForAttempt failure.Recovery.Attempt).Seconds := by
    rw [Seconds_lt_Seconds]
    exact not_lt.mpr hwait
  simp only [ge_iff_le, if_neg (not_le.mpr hmax), if_neg hs]

/-- Every call of `Handle` ends in one of its four branches. -/
theorem Handle_cases (action : errorRecoveryAction) (now : Time) (build : Build) :
    (build.Status.Failure = none ∧
      action.Handle now build =
        { build := ⟨⟨build.Status.Phase, build.Status.Error,
            some ⟨build.Status.Error, now, ⟨0, 5, 0⟩⟩⟩⟩
          ret := some ⟨⟨build.Status.Phase, build.Status.Error,
            some ⟨build.Status.Error, now, ⟨0, 5, 0⟩⟩⟩⟩
          err := none }) ∨
    (∃ failure, build.Status.Failure = some failure ∧
      failure.Recovery.AttemptMax ≤ failure.Recovery.Attempt ∧
      action.Handle now build =
        { build := ⟨⟨BuildPhaseError, build.Status.Error, some failure⟩⟩
          ret := some ⟨⟨BuildPhaseError, build.Status.Error, some failure⟩⟩
          err := none }) ∨
    (∃ failure, build.Status.Failure = some failure ∧
      failure.Recovery.Attempt < failure.Recovery.AttemptMax ∧
      Since now (lastAttempt failure)
        < action.backOff.ForAttempt failure.Recovery.Attempt ∧
      action.Handle now build = { build := build, ret := none, err := none }) ∨
    (∃ failure, build.Status.Failure = some failure ∧
      failure.Recovery.Attempt < failure.Recovery.AttemptMax ∧
      action.backOff.ForAttempt failure.Recovery.Attempt
        ≤ Since now (lastAttempt failure) ∧
      action.Handle now build =
        { build := ⟨⟨BuildPhaseInitialization, build.Status.Error,
            some ⟨failure.Reason, failure.Time,
              ⟨failure.Recovery.Attempt + 1, failure.Recovery.AttemptMax, now⟩⟩⟩⟩
          ret := some ⟨⟨BuildPhaseInitialization, build.Status.Error,
            some ⟨failure.Reason, failure.Time,
              ⟨failure.Recovery.Attempt + 1, failure.Recovery.AttemptMax, now⟩⟩⟩⟩
          err := none }) := by
  cases h : build.Status.Failure with
  | none => exact Or.inl ⟨rfl, Handle_create action now build h⟩
  | some failure =>
    right
    rcases le_or_lt failure.Recovery.AttemptMax failure.Recovery.Attempt with hmax | hmax
    · exact Or.inl ⟨failure, rfl, hmax, Handle_giveUp action now build failure h hmax⟩
    · right
      rcases lt_or_le (Since now (lastAttempt failure))
          (action.backOff.ForAttempt failure.Recovery.Attempt) with hwait | hwait
      · exact Or.inl ⟨failure, rfl, hmax, hwait,
          Handle_wait action now build failure h hmax hwait⟩
      · exact Or.inr ⟨failure, rfl, hmax, hwait,
          Handle_retry action now build failure h hmax hwait⟩

/-- The delays of the default policy on the attempt indices from 0 up. -/
theorem default_ForAttempt (n : Nat) :
    newErrorRecoveryAction.backOff.ForAttempt (n : Int)
      = min (60 * Second) (5 * Second * 2 ^ n) := by
  simp [newErrorRecoveryAction, Backoff.ForAttempt, Minute]

/-- With the default policy, a call at the very reading at which the failure
was recorded finds no time elapsed and waits. -/
theorem Handle_wait_after_create (t : Time) (phase : BuildPhase) (error : String) :
    newErrorRecoveryAction.Handle t ⟨⟨phase, error, some ⟨error, t, ⟨0, 5, 0⟩⟩⟩⟩
      = { build := ⟨⟨phase, error, some ⟨error, t, ⟨0, 5, 0⟩⟩⟩⟩
          ret := none
          err := none } :=
  Handle_wait newErrorRecoveryAction t ⟨⟨phase, error, some ⟨error, t, ⟨0, 5, 0⟩⟩⟩⟩
    ⟨error, t, ⟨0, 5, 0⟩⟩ rfl (by show (0 : Int) < 5; decide)
    (by norm_num [Since, lastAttempt, Time.IsZero, newErrorRecoveryAction,
      Backoff.ForAttempt, Second, Minute])

/-- When the attempt time is set, the time of the failure plays no part in
`lastAttempt`. -/
theorem lastAttempt_of_attemptTime (failure : Failure) (time : Time)
    (hset : failure.Recovery.AttemptTime ≠ 0) :
    lastAttempt { failure with Time := time } = lastAttempt failure := by
  simp [lastAttempt, Time.IsZero, hset]

/-! ## Eligibility -/

/-- C1: `CanHandle` answers true exactly on the records whose phase is `Failed`;
on a record in phase `Error`, `Initialization`, `Scheduling`, `Running` or
`Completed` it answers false, whatever the failure info holds. -/
theorem C1_CanHandle_iff_Failed (action : errorRecoveryAction) (build : Build) :
    (action.CanHandle build = true ↔ build.Status.Phase = BuildPhaseFailed) ∧
    (build.Status.Phase ∈ [BuildPhaseError, BuildPhaseInitialization,
        BuildPhaseScheduling, BuildPhaseRunning, BuildPhaseCompleted] →
      action.CanHandle build = false) := by
  refine ⟨by simp [errorRecoveryAction.CanHandle], ?_⟩
  intro hmem
  simp only [List.mem_cons, List.mem_singleton, List.not_mem_nil, or_false] at hmem
  have hne : build.Status.Phase ≠ BuildPhaseFailed := by
    rcases hmem with h | h | h | h | h <;> rw [h] <;> decide
  simp [errorRecoveryAction.CanHandle, hne]

/-- C1 at a record in phase `Error` that carries failure info with attempts
left: not eligible. -/
theorem C1_CanHandle_iff_Failed_witness :
    (⟨⟨BuildPhaseError, "boom", some ⟨"boom", 1000, ⟨1, 5, 0⟩⟩⟩⟩ : Build).Status.Phase
        ∈ [BuildPhaseError, BuildPhaseInitialization,
            BuildPhaseScheduling, BuildPhaseRunning, BuildPhaseCompleted] ∧
      newErrorRecoveryAction.CanHandle
        ⟨⟨BuildPhaseError, "boom", some ⟨"boom", 1000, ⟨1, 5, 0⟩⟩⟩⟩ = false :=
  ⟨by decide,
   (C1_CanHandle_iff_Failed newErrorRecoveryAction
      ⟨⟨BuildPhaseError, "boom", some ⟨"boom", 1000, ⟨1, 5, 0⟩⟩⟩⟩).2 (by decide)⟩

/-! ## The four outcomes of `Handle` -/

/-- C2: on a record without failure info, `Handle` returns the updated record
and no error; the update adds failure info with the reason copied from the
status error, the time `now`, attempt 0 of 5 and no attempt time, and leaves
the phase and the status error as they were. -/
theorem C2_Handle_records_episode (action : errorRecoveryAction) (now : Time)
    (build : Build) (h : build.Status.Failure = none) :
    (action.Handle now build).err = none ∧
    (action.Handle now build).ret = some (action.Handle now build).build ∧
    (action.Handle now build).build =
      { build with Status := { build.Status with
          Failure := some
            { Reason := build.Status.Error
              Time := now
              Recovery := { Attempt := 0, AttemptMax := 5, AttemptTime := 0 } } } } ∧
    (action.Handle now build).build.Status.Phase = build.Status.Phase ∧
    (action.Handle now build).build.Status.Error = build.Status.Error ∧
    (build.Status.Phase = BuildPhaseFailed →
      (action.Handle now build).build.Status.Phase = BuildPhaseFailed) := by
  rw [Handle_create action now build h]
  exact ⟨rfl, rfl, rfl, rfl, rfl, fun hp => hp⟩

/-- C2 in scenario A: a fresh `Failed` record without failure info. -/
theorem C2_Handle_records_episode_witness :
    (⟨⟨BuildPhaseFailed, "boom", none⟩⟩ : Build).Status.Failure = none ∧
    (newErrorRecoveryAction.Handle 7000000000 ⟨⟨BuildPhaseFailed, "boom", none⟩⟩).build
      = ⟨⟨BuildPhaseFailed, "boom", some ⟨"boom", 7000000000, ⟨0, 5, 0⟩⟩⟩⟩ :=
  ⟨rfl,
   (C2_Handle_records_episode newErrorRecoveryAction 7000000000
      ⟨⟨BuildPhaseFailed, "boom", none⟩⟩ rfl).2.2.1⟩

/-- C3: with failure info present, attempts left, and at least the backoff delay
of the current attempt count elapsed since the last attempt (equality included),
`Handle` returns the record with phase `Initialization`, the attempt count
raised by one and the attempt time `now`, and no error. -/
theorem C3_Handle_retries (action : errorRecoveryAction) (now : Time)
    (build : Build) (failure : Failure)
    (h : build.Status.Failure = some failure)
    (hmax : failure.Recovery.Attempt < failure.Recovery.AttemptMax)
    (hwait : Since now (if failure.Recovery.AttemptTime = 0 then failure.Time
          else failure.Recovery.AttemptTime)
        ≥ action.backOff.ForAttempt failure.Recovery.Attempt) :
    (action.Handle now build).err = none ∧
    (action.Handle now build).ret = some (action.Handle now build).build ∧
    (action.Handle now build).build =
      { build with Status := { build.Status with
          Phase := BuildPhaseInitialization
          Failure := some { failure with
            Recovery := { failure.Recovery with
              Attempt := failure.Recovery.Attempt + 1
              AttemptTime := now } } } } := by
  have hwait' : action.backOff.ForAttempt failure.Recovery.Attempt
      ≤ Since now (lastAttempt failure) := by
    simpa [lastAttempt, Time.IsZero] using hwait
  rw [Handle_retry action now build failure h hmax hwait']
  exact ⟨rfl, rfl, rfl⟩

/-- C3 in scenario C: the failure is 6 seconds old, attempt 0, minimum 5 seconds. -/
theorem C3_Handle_retries_witness :
    (newErrorRecoveryAction.Handle 106000000000
      ⟨⟨BuildPhaseFailed, "boom", some ⟨"boom", 100000000000, ⟨0, 5, 0⟩⟩⟩⟩).build
      = ⟨⟨BuildPhaseInitialization, "boom",
          some ⟨"boom", 100000000000, ⟨1, 5, 106000000000⟩⟩⟩⟩ :=
  (C3_Handle_retries newErrorRecoveryAction 106000000000
      ⟨⟨BuildPhaseFailed, "boom", some ⟨"boom", 100000000000, ⟨0, 5, 0⟩⟩⟩⟩
      ⟨"boom", 100000000000, ⟨0, 5, 0⟩⟩ rfl (by decide)
      (by norm_num [Since, newErrorRecoveryAction, Backoff.ForAttempt, Second, Minute])).2.2

/-- C4: with failure info present, attempts left, and less than the backoff
delay of the current attempt count elapsed since the last attempt, `Handle`
returns the no-op signal (nil, nil) and the record is left as it was. -/
theorem C4_Handle_waits (action : errorRecoveryAction) (now : Time)
    (build : Build) (failure : Failure)
    (h : build.Status.Failure = some failure)
    (hmax : failure.Recovery.Attempt < failure.Recovery.AttemptMax)
    (hwait : Since now (if failure.Recovery.AttemptTime = 0 then failure.Time
          else failure.Recovery.AttemptTime)
        < action.backOff.ForAttempt failure.Recovery.Attempt) :
    (action.Handle now build).ret = none ∧
    (action.Handle now build).err = none ∧
    (action.Handle now build).build = build := by
  have hwait' : Since now (lastAttempt failure)
      < action.backOff.ForAttempt failure.Recovery.Attempt := by
    simpa [lastAttempt, Time.IsZero] using hwait
  rw [Handle_wait action now build failure h hmax hwait']
  exact ⟨rfl, rfl, rfl⟩

/-- C4 in scenario B: the failure is 4 seconds old, attempt 0, minimum 5 seconds. -/
theorem C4_Handle_waits_witness :
    (newErrorRecoveryAction.Handle 104000000000
      ⟨⟨BuildPhaseFailed, "boom", some ⟨"boom", 100000000000, ⟨0, 5, 0⟩⟩⟩⟩).ret = none ∧
    (newErrorRecoveryAction.Handle 104000000000
      ⟨⟨BuildPhaseFailed, "boom", some ⟨"boom", 100000000000, ⟨0, 5, 0⟩⟩⟩⟩).err = none ∧
    (newErrorRecoveryAction.Handle 104000000000
      ⟨⟨BuildPhaseFailed, "boom", some ⟨"boom", 100000000000, ⟨0, 5, 0⟩⟩⟩⟩).build
      = ⟨⟨BuildPhaseFailed, "boom", some ⟨"boom", 100000000000, ⟨0, 5, 0⟩⟩⟩⟩ :=
  C4_Handle_waits newErrorRecoveryAction 104000000000
    ⟨⟨BuildPhaseFailed, "boom", some ⟨"boom", 100000000000, ⟨0, 5, 0⟩⟩⟩⟩
    ⟨"boom", 100000000000, ⟨0, 5, 0⟩⟩ rfl (by decide)
    (by norm_num [Since, newErrorRecoveryAction, Backoff.ForAttempt, Second, Minute])

/-- C5: with failure info present and the attempts used up, every call in a run
of successive `Handle` calls, whatever the clock readings, returns the original
record with the phase set to `Error` and nothing else changed: the failure
info and the status error stay as they were, and no call returns the no-op
signal or the phase `Initialization`. -/
theorem C5_Handle_gives_up (action : errorRecoveryAction) (clock : List Time)
    (build : Build) (failure : Failure)
    (h : build.Status.Failure = some failure)
    (hmax : failure.Recovery.Attempt ≥ failure.Recovery.AttemptMax) :
    (HandleRun action clock build).length = clock.length ∧
    ∀ r ∈ HandleRun action clock build,
      r.build = { build with Status := { build.Status with Phase := BuildPhaseError } } ∧
      r.ret = some r.build ∧
      r.err = none ∧
      r.build.Status.Failure = some failure ∧
      r.build.Status.Error = build.Status.Error ∧
      r.ret ≠ none ∧
      r.build.Status.Phase ≠ BuildPhaseInitialization := by
  induction clock generalizing build with
  | nil => simp [HandleRun]
  | cons now clock ih =>
    have hr := Handle_giveUp action now build failure h hmax
    have ih' := ih (action.Handle now build).build (by rw [hr])
    simp only [HandleRun, List.length_cons, List.mem_cons]
    refine ⟨by rw [ih'.1], ?_⟩
    intro r hmem
    rcases hmem with hhead | htail
    · subst hhead
      rw [hr]
      refine ⟨by simp [h], rfl, rfl, rfl, rfl, by simp, ?_⟩
      show BuildPhaseError ≠ BuildPhaseInitialization
      decide
    · have ht := ih'.2 r htail
      rw [hr] at ht
      obtain ⟨hb, hret, herr, hf, he, hnone, hph⟩ := ht
      refine ⟨?_, hret, herr, hf, he, hnone, hph⟩
      rw [hb]
      simp [h]

/-- C5 in scenario D: attempt 5 of 5, phase `Failed`, three calls in a row. -/
theorem C5_Handle_gives_up_witness :
    (HandleRun newErrorRecoveryAction [7000000000, 7000000001, 99000000000]
        ⟨⟨BuildPhaseFailed, "boom",
          some ⟨"boom", 1000000000, ⟨5, 5, 6000000000⟩⟩⟩⟩).length = 3 ∧
    ∀ r ∈ HandleRun newErrorRecoveryAction [7000000000, 7000000001, 99000000000]
        ⟨⟨BuildPhaseFailed, "boom", some ⟨"boom", 1000000000, ⟨5, 5, 6000000000⟩⟩⟩⟩,
      r.build = ⟨⟨BuildPhaseError, "boom",
          some ⟨"boom", 1000000000, ⟨5, 5, 6000000000⟩⟩⟩⟩ ∧
      r.ret = some r.build ∧
      r.err = none ∧
      r.build.Status.Failure = some ⟨"boom", 1000000000, ⟨5, 5, 6000000000⟩⟩ ∧
      r.build.Status.Error = "boom" ∧
      r.ret ≠ none ∧
      r.build.Status.Phase ≠ BuildPhaseInitialization :=
  C5_Handle_gives_up newErrorRecoveryAction [7000000000, 7000000001, 99000000000]
    ⟨⟨BuildPhaseFailed, "boom", some ⟨"boom", 1000000000, ⟨5, 5, 6000000000⟩⟩⟩⟩
    ⟨"boom", 1000000000, ⟨5, 5, 6000000000⟩⟩ rfl (by decide)

/-! ## Invariants and frame -/

/-- C6: if the record has no failure info, or failure info whose attempt count
is at most its cap, then after `Handle` the record has failure info whose
attempt count is at most its cap; and when failure info was there before, the
attempt count did not decrease and grew by at most one. -/
theorem C6_attempt_within_cap (action : errorRecoveryAction) (now : Time)
    (build : Build)
    (hinv : ∀ failure, build.Status.Failure = some failure →
      failure.Recovery.Attempt ≤ failure.Recovery.AttemptMax) :
    ∃ after, (action.Handle now build).build.Status.Failure = some after ∧
      after.Recovery.Attempt ≤ after.Recovery.AttemptMax ∧
      ∀ failure, build.Status.Failure = some failure →
        failure.Recovery.Attempt ≤ after.Recovery.Attempt ∧
        after.Recovery.Attempt ≤ failure.Recovery.Attempt + 1 := by
  rcases Handle_cases action now build with
    ⟨h, hr⟩ | ⟨failure, h, _, hr⟩ | ⟨failure, h, _, _, hr⟩ | ⟨failure, h, hmax, _, hr⟩
  · refine ⟨⟨build.Status.Error, now, ⟨0, 5, 0⟩⟩, by rw [hr],
      by show (0 : Int) ≤ 5; decide, ?_⟩
    intro failure hf
    rw [h] at hf
    cases hf
  · refine ⟨failure, by rw [hr], hinv failure h, ?_⟩
    intro failure' hf
    rw [h] at hf
    cases hf
    exact ⟨le_refl _, by omega⟩
  · refine ⟨failure, by rw [hr, h], hinv failure h, ?_⟩
    intro failure' hf
    rw [h] at hf
    cases hf
    exact ⟨le_refl _, by omega⟩
  · refine ⟨⟨failure.Reason, failure.Time,
        ⟨failure.Recovery.Attempt + 1, failure.Recovery.AttemptMax, now⟩⟩,
      by rw [hr], ?_, ?_⟩
    · show failure.Recovery.Attempt + 1 ≤ failure.Recovery.AttemptMax
      omega
    · intro failure' hf
      rw [h] at hf
      cases hf
      exact ⟨by show failure.Recovery.Attempt ≤ failure.Recovery.Attempt + 1; omega,
        le_refl _⟩

/-- C6 at a record on its fourth attempt whose delay has passed: the count goes
from 4 to 5, the cap. -/
theorem C6_attempt_within_cap_witness :
    ∃ after, (newErrorRecoveryAction.Handle 200000000000
        ⟨⟨BuildPhaseFailed, "boom",
          some ⟨"boom", 1000000000, ⟨4, 5, 100000000000⟩⟩⟩⟩).build.Status.Failure
          = some after ∧
      after.Recovery.Attempt ≤ after.Recovery.AttemptMax ∧
      ∀ failure, (⟨⟨BuildPhaseFailed, "boom",
          some ⟨"boom", 1000000000, ⟨4, 5, 100000000000⟩⟩⟩⟩ : Build).Status.Failure
            = some failure →
        failure.Recovery.Attempt ≤ after.Recovery.Attempt ∧
        after.Recovery.Attempt ≤ failure.Recovery.Attempt + 1 :=
  C6_attempt_within_cap newErrorRecoveryAction 200000000000
    ⟨⟨BuildPhaseFailed, "boom", some ⟨"boom", 1000000000, ⟨4, 5, 100000000000⟩⟩⟩⟩
    (fun failure hf => by cases hf; decide)

/-! ## The backoff delays -/

/-- C7: for the policy built by `newErrorRecoveryAction` the delay of attempt
`n` is `min(60s, 5s·2^n)` and is positive; the delay of attempt 0 is the
minimum, 5s, and the delays of attempts 0 to 4 are 5s, 10s, 20s, 40s, 60s.
This is the wait `Handle` requires: with attempts left, on attempt `n` it
returns the no-op signal exactly when less than that has elapsed. -/
theorem C7_default_delays :
    (∀ n : Nat,
      newErrorRecoveryAction.backOff.ForAttempt (n : Int)
        = min (60 * Second) (5 * Second * 2 ^ n) ∧
      0 < newErrorRecoveryAction.backOff.ForAttempt (n : Int)) ∧
    newErrorRecoveryAction.backOff.ForAttempt 0 = newErrorRecoveryAction.backOff.Min ∧
    newErrorRecoveryAction.backOff.ForAttempt 0 = 5 * Second ∧
    newErrorRecoveryAction.backOff.ForAttempt 1 = 10 * Second ∧
    newErrorRecoveryAction.backOff.ForAttempt 2 = 20 * Second ∧
    newErrorRecoveryAction.backOff.ForAttempt 3 = 40 * Second ∧
    newErrorRecoveryAction.backOff.ForAttempt 4 = 60 * Second ∧
    (∀ (now : Time) (build : Build) (failure : Failure) (n : Nat),
      build.Status.Failure = some failure →
      failure.Recovery.Attempt = (n : Int) →
      failure.Recovery.Attempt < failure.Recovery.AttemptMax →
      ((newErrorRecoveryAction.Handle now build).ret = none ↔
        Since now (lastAttempt failure) < min (60 * Second) (5 * Second * 2 ^ n))) := by
  refine ⟨fun n => ⟨default_ForAttempt n, ?_⟩, ?_, ?_, ?_, ?_, ?_, ?_, ?_⟩
  · rw [default_ForAttempt]
    exact lt_min (by norm_num [Second]) (by unfold Second; positivity)
  · norm_num [newErrorRecoveryAction, Backoff.ForAttempt, Second, Minute]
  · norm_num [newErrorRecoveryAction, Backoff.ForAttempt, Second, Minute]
  · norm_num [newErrorRecoveryAction, Backoff.ForAttempt, Second, Minute]
  · norm_num [newErrorRecoveryAction, Backoff.ForAttempt, Second, Minute]
  · norm_num [newErrorRecoveryAction, Backoff.ForAttempt, Second, Minute]
  · norm_num [newErrorRecoveryAction, Backoff.ForAttempt, Second, Minute]
  · intro now build failure n h hn hmax
    rw [← default_ForAttempt n, ← hn]
    constructor
    · intro hret
      by_contra hnot
      rw [Handle_retry newErrorRecoveryAction now build failure h hmax
        (not_lt.mp hnot)] at hret
      cases hret
    · intro hwait
      rw [Handle_wait newErrorRecoveryAction now build failure h hmax hwait]

/-- C7 at a record on attempt 2 whose last retry is 19 seconds old: the wait of
20 seconds has not passed, so `Handle` returns the no-op signal. -/
theorem C7_default_delays_witness :
    (newErrorRecoveryAction.Handle 119000000000
      ⟨⟨BuildPhaseFailed, "boom",
        some ⟨"boom", 1000000000, ⟨2, 5, 100000000000⟩⟩⟩⟩).ret = none :=
  (C7_default_delays.2.2.2.2.2.2.2 119000000000
    ⟨⟨BuildPhaseFailed, "boom", some ⟨"boom", 1000000000, ⟨2, 5, 100000000000⟩⟩⟩⟩
    ⟨"boom", 1000000000, ⟨2, 5, 100000000000⟩⟩ 2 rfl rfl (by decide)).mpr
    (by norm_num [Since, lastAttempt, Time.IsZero, Second])

/-- C8: for a backoff configuration with a positive minimum, a factor above 1,
a maximum not below the minimum and no jitter, the delay of attempt 0 is the
minimum, the delay does not decrease from one attempt to the next, and every
delay lies between the minimum and the maximum. -/
theorem C8_ForAttempt_bounds (b : Backoff)
    (hmin : 0 < b.Min) (hfactor : 1 < b.Factor) (hmax : b.Max ≥ b.Min)
    (_hjitter : b.Jitter = false) :
    b.ForAttempt 0 = b.Min ∧
    ∀ n : Nat,
      b.ForAttempt (n : Int) ≤ b.ForAttempt ((n + 1 : Nat) : Int) ∧
      b.Min ≤ b.ForAttempt (n : Int) ∧
      b.ForAttempt (n : Int) ≤ b.Max := by
  refine ⟨by simpa [Backoff.ForAttempt] using hmax, ?_⟩
  intro n
  simp only [Backoff.ForAttempt, zpow_natCast]
  have hone : (1 : ℚ) ≤ b.Factor ^ n := one_le_pow₀ hfactor.le
  have hstep : b.Factor ^ n ≤ b.Factor ^ (n + 1) :=
    pow_le_pow_right₀ hfactor.le (Nat.le_succ n)
  refine ⟨min_le_min le_rfl (mul_le_mul_of_nonneg_left hstep hmin.le),
    le_min hmax ?_, min_le_left _ _⟩
  calc b.Min = b.Min * 1 := (mul_one _).symm
    _ ≤ b.Min * b.Factor ^ n := mul_le_mul_of_nonneg_left hone hmin.le

/-- C8 at a configuration with a fractional factor: minimum 2s, maximum 9s,
factor 3/2. -/
theorem C8_ForAttempt_bounds_witness :
    (Backoff.mk (3 / 2) false (2 * Second) (9 * Second)).ForAttempt 0 = 2 * Second ∧
    ∀ n : Nat,
      (Backoff.mk (3 / 2) false (2 * Second) (9 * Second)).ForAttempt (n : Int)
        ≤ (Backoff.mk (3 / 2) false (2 * Second) (9 * Second)).ForAttempt
            ((n + 1 : Nat) : Int) ∧
      2 * Second ≤ (Backoff.mk (3 / 2) false (2 * Second) (9 * Second)).ForAttempt (n : Int) ∧
      (Backoff.mk (3 / 2) false (2 * Second) (9 * Second)).ForAttempt (n : Int)
        ≤ 9 * Second :=
  C8_ForAttempt_bounds (Backoff.mk (3 / 2) false (2 * Second) (9 * Second))
    (by norm_num [Second]) (by norm_num) (by norm_num [Second]) rfl

/-! ## Errors -/

/-- C9: `Handle` never returns an error: the returned error is nil, the call
either returns the updated record or returns the no-op signal and leaves the
record alone, and when the attempts are used up it returns the record in
phase `Error`, not an error. -/
theorem C9_Handle_no_error (action : errorRecoveryAction) (now : Time)
    (build : Build) :
    (action.Handle now build).err = none ∧
    ((action.Handle now build).ret = some (action.Handle now build).build ∨
      ((action.Handle now build).ret = none ∧
        (action.Handle now build).build = build)) ∧
    (∀ failure, build.Status.Failure = some failure →
      failure.Recovery.Attempt ≥ failure.Recovery.AttemptMax →
      (action.Handle now build).err = none ∧
      (action.Handle now build).ret = some (action.Handle now build).build ∧
      (action.Handle now build).build.Status.Phase = BuildPhaseError) := by
  refine ⟨?_, ?_, ?_⟩
  · rcases Handle_cases action now build with
      ⟨_, hr⟩ | ⟨_, _, _, hr⟩ | ⟨_, _, _, _, hr⟩ | ⟨_, _, _, _, hr⟩ <;> rw [hr]
  · rcases Handle_cases action now build with
      ⟨_, hr⟩ | ⟨_, _, _, hr⟩ | ⟨_, _, _, _, hr⟩ | ⟨_, _, _, _, hr⟩ <;> rw [hr]
    · exact Or.inl rfl
    · exact Or.inl rfl
    · exact Or.inr ⟨rfl, rfl⟩
    · exact Or.inl rfl
  · intro failure h hmax
    rw [Handle_giveUp action now build failure h hmax]
    exact ⟨rfl, rfl, rfl⟩

/-- C9 at a record whose attempts are used up: phase `Error`, no error. -/
theorem C9_Handle_no_error_witness :
    (newErrorRecoveryAction.Handle 50000000000
      ⟨⟨BuildPhaseFailed, "boom", some ⟨"boom", 1000000000, ⟨5, 5, 40000000000⟩⟩⟩⟩).err
        = none ∧
    (newErrorRecoveryAction.Handle 50000000000
      ⟨⟨BuildPhaseFailed, "boom", some ⟨"boom", 1000000000, ⟨5, 5, 40000000000⟩⟩⟩⟩).ret
        = some (newErrorRecoveryAction.Handle 50000000000
      ⟨⟨BuildPhaseFailed, "boom",
        some ⟨"boom", 1000000000, ⟨5, 5, 40000000000⟩⟩⟩⟩).build ∧
    (newErrorRecoveryAction.Handle 50000000000
      ⟨⟨BuildPhaseFailed, "boom",
        some ⟨"boom", 1000000000, ⟨5, 5, 40000000000⟩⟩⟩⟩).build.Status.Phase
        = BuildPhaseError :=
  (C9_Handle_no_error newErrorRecoveryAction 50000000000
    ⟨⟨BuildPhaseFailed, "boom", some ⟨"boom", 1000000000, ⟨5, 5, 40000000000⟩⟩⟩⟩).2.2
    ⟨"boom", 1000000000, ⟨5, 5, 40000000000⟩⟩ rfl (by decide)

/-- C10: on a record that already has failure info, `Handle` leaves the reason,
the time and the attempt cap of the failure info as they were, and the status
error too, whichever branch it takes; the reason is not copied again from the
status error. -/
theorem C10_Handle_frame (action : errorRecoveryAction) (now : Time)
    (build : Build) (failure : Failure)
    (h : build.Status.Failure = some failure) :
    ∃ after, (action.Handle now build).build.Status.Failure = some after ∧
      after.Reason = failure.Reason ∧
      after.Time = failure.Time ∧
      after.Recovery.AttemptMax = failure.Recovery.AttemptMax ∧
      (action.Handle now build).build.Status.Error = build.Status.Error := by
  rcases Handle_cases action now build with
    ⟨h', _⟩ | ⟨failure', h', _, hr⟩ | ⟨failure', h', _, _, hr⟩ | ⟨failure', h', _, _, hr⟩
  · rw [h] at h'
    cases h'
  · rw [h] at h'
    cases h'
    exact ⟨failure, by rw [hr], rfl, rfl, rfl, by rw [hr]⟩
  · rw [h] at h'
    cases h'
    exact ⟨failure, by rw [hr, h], rfl, rfl, rfl, by rw [hr]⟩
  · rw [h] at h'
    cases h'
    exact ⟨⟨failure.Reason, failure.Time,
        ⟨failure.Recovery.Attempt + 1, failure.Recovery.AttemptMax, now⟩⟩,
      by rw [hr], rfl, rfl, rfl, by rw [hr]⟩

/-- C10 at a retry on a record whose status error has changed since the failure
was recorded: the reason stays the recorded one. -/
theorem C10_Handle_frame_witness :
    ∃ after, (newErrorRecoveryAction.Handle 106000000000
        ⟨⟨BuildPhaseFailed, "later error",
          some ⟨"first error", 100000000000, ⟨0, 5, 0⟩⟩⟩⟩).build.Status.Failure
          = some after ∧
      after.Reason = "first error" ∧
      after.Time = 100000000000 ∧
      after.Recovery.AttemptMax = 5 ∧
      (newErrorRecoveryAction.Handle 106000000000
        ⟨⟨BuildPhaseFailed, "later error",
          some ⟨"first error", 100000000000, ⟨0, 5, 0⟩⟩⟩⟩).build.Status.Error
          = "later error" :=
  C10_Handle_frame newErrorRecoveryAction 106000000000
    ⟨⟨BuildPhaseFailed, "later error", some ⟨"first error", 100000000000, ⟨0, 5, 0⟩⟩⟩⟩
    ⟨"first error", 100000000000, ⟨0, 5, 0⟩⟩ rfl

/-! ## Repeated invocation at a fixed clock -/

/-- C11: on a record without failure info, calling `Handle` at clock reading `t`
and then again at `t` on the record the first call left gives the failure info
the first call created (reason = status error, time = `t`, attempt 0 of 5, no
attempt time); the second call returns the no-op signal and changes nothing. -/
theorem C11_Handle_twice_same_clock (t : Time) (build : Build)
    (h : build.Status.Failure = none) :
    (newErrorRecoveryAction.Handle t build).build.Status.Failure
      = some ⟨build.Status.Error, t, ⟨0, 5, 0⟩⟩ ∧
    (newErrorRecoveryAction.Handle t
      (newErrorRecoveryAction.Handle t build).build).ret = none ∧
    (newErrorRecoveryAction.Handle t
      (newErrorRecoveryAction.Handle t build).build).err = none ∧
    (newErrorRecoveryAction.Handle t
      (newErrorRecoveryAction.Handle t build).build).build
      = (newErrorRecoveryAction.Handle t build).build ∧
    (newErrorRecoveryAction.Handle t
      (newErrorRecoveryAction.Handle t build).build).build.Status.Failure
      = some ⟨build.Status.Error, t, ⟨0, 5, 0⟩⟩ := by
  rw [Handle_create newErrorRecoveryAction t build h]
  show _ ∧ (newErrorRecoveryAction.Handle t
      ⟨⟨build.Status.Phase, build.Status.Error,
        some ⟨build.Status.Error, t, ⟨0, 5, 0⟩⟩⟩⟩).ret = none ∧ _
  rw [Handle_wait_after_create t build.Status.Phase build.Status.Error]
  exact ⟨rfl, rfl, rfl, rfl, rfl⟩

/-- C11 on a fresh `Failed` record at clock reading 7s. -/
theorem C11_Handle_twice_same_clock_witness :
    (newErrorRecoveryAction.Handle 7000000000
      (newErrorRecoveryAction.Handle 7000000000
        ⟨⟨BuildPhaseFailed, "boom", none⟩⟩).build).ret = none ∧
    (newErrorRecoveryAction.Handle 7000000000
      (newErrorRecoveryAction.Handle 7000000000
        ⟨⟨BuildPhaseFailed, "boom", none⟩⟩).build).build.Status.Failure
      = some ⟨"boom", 7000000000, ⟨0, 5, 0⟩⟩ :=
  ⟨(C11_Handle_twice_same_clock 7000000000 ⟨⟨BuildPhaseFailed, "boom", none⟩⟩ rfl).2.1,
   (C11_Handle_twice_same_clock 7000000000
      ⟨⟨BuildPhaseFailed, "boom", none⟩⟩ rfl).2.2.2.2⟩

/-- C12: with the default policy the reconciliation step is idempotent at a
fixed clock: `step t (step t r) = step t r` for every record and reading. -/
theorem C12_step_idempotent (t : Time) (r : Build) :
    step newErrorRecoveryAction t (step newErrorRecoveryAction t r)
      = step newErrorRecoveryAction t r := by
  by_cases hcan : newErrorRecoveryAction.CanHandle r = true
  · have hphase : r.Status.Phase = BuildPhaseFailed := by
      simpa [errorRecoveryAction.CanHandle] using hcan
    rcases Handle_cases newErrorRecoveryAction t r with
      ⟨_, hr⟩ | ⟨failure, _, _, hr⟩ | ⟨failure, _, _, _, hr⟩ | ⟨failure, _, _, _, hr⟩
    · have hsecond := Handle_wait_after_create t r.Status.Phase r.Status.Error
      have hfirst : step newErrorRecoveryAction t r =
          ⟨⟨r.Status.Phase, r.Status.Error,
            some ⟨r.Status.Error, t, ⟨0, 5, 0⟩⟩⟩⟩ := by
        simp [step, hcan, hr]
      rw [hfirst]
      simp only [step, hsecond, ite_self]
    · have hfirst : step newErrorRecoveryAction t r =
          ⟨⟨BuildPhaseError, r.Status.Error, some failure⟩⟩ := by
        simp [step, hcan, hr]
      rw [hfirst]
      have hno : newErrorRecoveryAction.CanHandle
          ⟨⟨BuildPhaseError, r.Status.Error, some failure⟩⟩ = false := by
        simp [errorRecoveryAction.CanHandle, BuildPhaseError, BuildPhaseFailed]
      simp [step, hno]
    · have hfirst : step newErrorRecoveryAction t r = r := by
        simp [step, hcan, hr]
      rw [hfirst, hfirst]
    · have hfirst : step newErrorRecoveryAction t r =
          ⟨⟨BuildPhaseInitialization, r.Status.Error,
            some ⟨failure.Reason, failure.Time,
              ⟨failure.Recovery.Attempt + 1, failure.Recovery.AttemptMax, t⟩⟩⟩⟩ := by
        simp [step, hcan, hr]
      rw [hfirst]
      have hno : newErrorRecoveryAction.CanHandle
          ⟨⟨BuildPhaseInitialization, r.Status.Error,
            some ⟨failure.Reason, failure.Time,
              ⟨failure.Recovery.Attempt + 1, failure.Recovery.AttemptMax, t⟩⟩⟩⟩
            = false := by
        simp [errorRecoveryAction.CanHandle, BuildPhaseInitialization, BuildPhaseFailed]
      simp [step, hno]
  · have hfirst : step newErrorRecoveryAction t r = r := by
      simp [step, hcan]
    rw [hfirst, hfirst]

/-! ## Construction -/

/-- C14, as the code has it: `newErrorRecoveryAction` takes no backoff parameters
and always yields the policy with minimum 5s, maximum 60s, factor 2 and no
jitter, which is valid (positive minimum, factor above 1, maximum not below
the minimum); and nothing validates a policy: every configuration, valid or
not, makes an action, and `Handle` runs with it and returns no error. -/
theorem C14_default_policy_valid :
    newErrorRecoveryAction.backOff.Min = 5 * Second ∧
    newErrorRecoveryAction.backOff.Max = 60 * Second ∧
    newErrorRecoveryAction.backOff.Factor = 2 ∧
    newErrorRecoveryAction.backOff.Jitter = false ∧
    0 < newErrorRecoveryAction.backOff.Min ∧
    1 < newErrorRecoveryAction.backOff.Factor ∧
    newErrorRecoveryAction.backOff.Min ≤ newErrorRecoveryAction.backOff.Max ∧
    ∀ b : Backoff, ∃ action : errorRecoveryAction, action.backOff = b ∧
      ∀ (now : Time) (build : Build), (action.Handle now build).err = none := by
  refine ⟨rfl, by norm_num [newErrorRecoveryAction, Minute], rfl, rfl,
    by norm_num [newErrorRecoveryAction, Second], by norm_num [newErrorRecoveryAction],
    by norm_num [newErrorRecoveryAction, Second, Minute], ?_⟩
  intro b
  refine ⟨⟨b⟩, rfl, ?_⟩
  intro now build
  rcases Handle_cases ⟨b⟩ now build with
    ⟨_, hr⟩ | ⟨_, _, _, hr⟩ | ⟨_, _, _, _, hr⟩ | ⟨_, _, _, _, hr⟩ <;> rw [hr]

/-- C14 fails as stated: an action whose policy has minimum 0, factor 1 and
maximum below the minimum is built without complaint, and `Handle` runs with
it (here it records a failure episode). -/
theorem C14_invalid_policy_accepted :
    (errorRecoveryAction.mk ⟨1, false, 0, -1⟩).backOff.Min ≤ 0 ∧
    (errorRecoveryAction.mk ⟨1, false, 0, -1⟩).backOff.Factor ≤ 1 ∧
    (errorRecoveryAction.mk ⟨1, false, 0, -1⟩).backOff.Max
      < (errorRecoveryAction.mk ⟨1, false, 0, -1⟩).backOff.Min ∧
    (errorRecoveryAction.mk ⟨1, false, 0, -1⟩).Handle 7000000000
        ⟨⟨BuildPhaseFailed, "boom", none⟩⟩
      = { build := ⟨⟨BuildPhaseFailed, "boom",
            some ⟨"boom", 7000000000, ⟨0, 5, 0⟩⟩⟩⟩
          ret := some ⟨⟨BuildPhaseFailed, "boom",
            some ⟨"boom", 7000000000, ⟨0, 5, 0⟩⟩⟩⟩
          err := none } :=
  ⟨le_refl _, le_refl _, by norm_num, rfl⟩

/-! ## The no-op signal and the phase -/

/-- C15: `Handle` returns the no-op signal (nil, nil) exactly when failure info
is present, attempts are left, and less than the backoff delay of the current
attempt count has elapsed since the attempt time when that is set, else since
the failure time.  So the creation and give-up branches never return the
no-op signal, and when the attempt time is set the failure time has no
influence on whether `Handle` waits, on the phase or on the recovery fields. -/
theorem C15_noop_iff (action : errorRecoveryAction) (now : Time) (build : Build) :
    (((action.Handle now build).ret = none ∧ (action.Handle now build).err = none) ↔
      ∃ failure, build.Status.Failure = some failure ∧
        failure.Recovery.Attempt < failure.Recovery.AttemptMax ∧
        Since now (if failure.Recovery.AttemptTime = 0 then failure.Time
            else failure.Recovery.AttemptTime)
          < action.backOff.ForAttempt failure.Recovery.Attempt) ∧
    (build.Status.Failure = none → (action.Handle now build).ret ≠ none) ∧
    (∀ failure, build.Status.Failure = some failure →
      failure.Recovery.Attempt ≥ failure.Recovery.AttemptMax →
      (action.Handle now build).ret ≠ none) ∧
    (∀ (failure : Failure) (time : Time), build.Status.Failure = some failure →
      failure.Recovery.AttemptTime ≠ 0 →
      (((action.Handle now { build with Status := { build.Status with
            Failure := some { failure with Time := time } } }).ret = none ↔
          (action.Handle now build).ret = none) ∧
        (action.Handle now { build with Status := { build.Status with
            Failure := some { failure with Time := time } } }).build.Status.Phase
          = (action.Handle now build).build.Status.Phase ∧
        (action.Handle now { build with Status := { build.Status with
            Failure := some { failure with Time := time } } }).build.Status.Failure.map
              (fun f => f.Recovery)
          = (action.Handle now build).build.Status.Failure.map (fun f => f.Recovery))) := by
  refine ⟨?_, ?_, ?_, ?_⟩
  · constructor
    · intro hnoop
      rcases Handle_cases action now build with
        ⟨_, hr⟩ | ⟨_, _, _, hr⟩ | ⟨failure, h, hmax, hwait, _⟩ | ⟨_, _, _, _, hr⟩
      · rw [hr] at hnoop
        cases hnoop.1
      · rw [hr] at hnoop
        cases hnoop.1
      · exact ⟨failure, h, hmax, by simpa [lastAttempt, Time.IsZero] using hwait⟩
      · rw [hr] at hnoop
        cases hnoop.1
    · rintro ⟨failure, h, hmax, hwait⟩
      have hwait' : Since now (lastAttempt failure)
          < action.backOff.ForAttempt failure.Recovery.Attempt := by
        simpa [lastAttempt, Time.IsZero] using hwait
      rw [Handle_wait action now build failure h hmax hwait']
      exact ⟨rfl, rfl⟩
  · intro h
    rw [Handle_create action now build h]
    simp
  · intro failure h hmax
    rw [Handle_giveUp action now build failure h hmax]
    simp
  · intro failure time h hset
    have hlast := lastAttempt_of_attemptTime failure time hset
    rcases le_or_lt failure.Recovery.AttemptMax failure.Recovery.Attempt with hmax | hmax
    · rw [Handle_giveUp action now build failure h hmax,
        Handle_giveUp action now _ { failure with Time := time } rfl hmax]
      simp
    · rcases lt_or_le (Since now (lastAttempt failure))
          (action.backOff.ForAttempt failure.Recovery.Attempt) with hwait | hwait
      · rw [Handle_wait action now build failure h hmax hwait,
          Handle_wait action now _ { failure with Time := time } rfl hmax
            (by rw [hlast]; exact hwait)]
        simp [h]
      · rw [Handle_retry action now build failure h hmax hwait,
          Handle_retry action now _ { failure with Time := time } rfl hmax
            (by rw [hlast]; exact hwait)]
        simp

/-- C15 at a record retried 19 seconds ago on attempt 2 (delay 20 seconds): the
no-op signal. -/
theorem C15_noop_iff_witness :
    (newErrorRecoveryAction.Handle 119000000000
      ⟨⟨BuildPhaseFailed, "boom",
        some ⟨"boom", 1000000000, ⟨2, 5, 100000000000⟩⟩⟩⟩).ret = none ∧
    (newErrorRecoveryAction.Handle 119000000000
      ⟨⟨BuildPhaseFailed, "boom",
        some ⟨"boom", 1000000000, ⟨2, 5, 100000000000⟩⟩⟩⟩).err = none :=
  (C15_noop_iff newErrorRecoveryAction 119000000000
    ⟨⟨BuildPhaseFailed, "boom",
      some ⟨"boom", 1000000000, ⟨2, 5, 100000000000⟩⟩⟩⟩).1.mpr
    ⟨⟨"boom", 1000000000, ⟨2, 5, 100000000000⟩⟩, rfl, by decide,
      by norm_num [Since, newErrorRecoveryAction, Backoff.ForAttempt, Second, Minute]⟩

/-- C16: `Handle` does not look at the phase: on a record in phase `Error`,
which `CanHandle` refuses, with failure info present, attempts left and the
backoff delay elapsed, it returns the record with phase `Initialization` and
the attempt count raised by one. -/
theorem C16_Handle_ignores_phase (action : errorRecoveryAction) (now : Time)
    (build : Build) (failure : Failure)
    (hphase : build.Status.Phase = BuildPhaseError)
    (h : build.Status.Failure = some failure)
    (hmax : failure.Recovery.Attempt < failure.Recovery.AttemptMax)
    (hwait : Since now (if failure.Recovery.AttemptTime = 0 then failure.Time
          else failure.Recovery.AttemptTime)
        ≥ action.backOff.ForAttempt failure.Recovery.Attempt) :
    action.CanHandle build = false ∧
    (action.Handle now build).err = none ∧
    (action.Handle now build).ret = some (action.Handle now build).build ∧
    (action.Handle now build).build.Status.Phase = BuildPhaseInitialization ∧
    (action.Handle now build).build.Status.Failure
      = some { failure with
          Recovery := { failure.Recovery with
            Attempt := failure.Recovery.Attempt + 1
            AttemptTime := now } } := by
  have hwait' : action.backOff.ForAttempt failure.Recovery.Attempt
      ≤ Since now (lastAttempt failure) := by
    simpa [lastAttempt, Time.IsZero] using hwait
  rw [Handle_retry action now build failure h hmax hwait']
  refine ⟨?_, rfl, rfl, rfl, rfl⟩
  simp [errorRecoveryAction.CanHandle, hphase, BuildPhaseError, BuildPhaseFailed]

/-- C16 at a record in phase `Error` on attempt 1 of 5, last retried 30 seconds
ago (delay 10 seconds): the build is restarted on attempt 2. -/
theorem C16_Handle_ignores_phase_witness :
    newErrorRecoveryAction.CanHandle
      ⟨⟨BuildPhaseError, "boom",
        some ⟨"boom", 1000000000, ⟨1, 5, 100000000000⟩⟩⟩⟩ = false ∧
    (newErrorRecoveryAction.Handle 130000000000
      ⟨⟨BuildPhaseError, "boom",
        some ⟨"boom", 1000000000, ⟨1, 5, 100000000000⟩⟩⟩⟩).err = none ∧
    (newErrorRecoveryAction.Handle 130000000000
      ⟨⟨BuildPhaseError, "boom",
        some ⟨"boom", 1000000000, ⟨1, 5, 100000000000⟩⟩⟩⟩).ret
      = some (newErrorRecoveryAction.Handle 130000000000
      ⟨⟨BuildPhaseError, "boom",
        some ⟨"boom", 1000000000, ⟨1, 5, 100000000000⟩⟩⟩⟩).build ∧
    (newErrorRecoveryAction.Handle 130000000000
      ⟨⟨BuildPhaseError, "boom",
        some ⟨"boom", 1000000000, ⟨1, 5, 100000000000⟩⟩⟩⟩).build.Status.Phase
      = BuildPhaseInitialization ∧
    (newErrorRecoveryAction.Handle 130000000000
      ⟨⟨BuildPhaseError, "boom",
        some ⟨"boom", 1000000000, ⟨1, 5, 100000000000⟩⟩⟩⟩).build.Status.Failure
      = some ⟨"boom", 1000000000, ⟨2, 5, 130000000000⟩⟩ :=
  C16_Handle_ignores_phase newErrorRecoveryAction 130000000000
    ⟨⟨BuildPhaseError, "boom", some ⟨"boom", 1000000000, ⟨1, 5, 100000000000⟩⟩⟩⟩
    ⟨"boom", 1000000000, ⟨1, 5, 100000000000⟩⟩ rfl rfl (by decide)
    (by norm_num [Since, newErrorRecoveryAction, Backoff.ForAttempt, Second, Minute])

/-! ## Runs of `Handle` calls and phase changes -/

/-- With failure info present, the calls of a run that return phase
`Initialization` or raise the attempt count are at most as many as the attempts
left. -/
theorem calls_le_attempts_left (action : errorRecoveryAction) (steps : List RunStep) :
    ∀ (build : Build) (failure : Failure), build.Status.Failure = some failure →
      List.countP (fun c => returnsInitialization c.2 || incrementsAttempt c)
          (RunCalls action steps build)
        ≤ (failure.Recovery.AttemptMax - failure.Recovery.Attempt).toNat := by
  induction steps with
  | nil => intro build failure _; simp [RunCalls]
  | cons s steps ih =>
    intro build failure h
    cases s with
    | setPhase phase =>
      simp only [RunCalls]
      exact ih _ failure h
    | handle now =>
      simp only [RunCalls, List.countP_cons]
      rcases Handle_cases action now build with
        ⟨h', _⟩ | ⟨failure', h', hmax, hr⟩ | ⟨failure', h', hmax, _, hr⟩ |
        ⟨failure', h', hmax, _, hr⟩
      · rw [h] at h'
        cases h'
      · rw [h] at h'
        cases h'
        have hrest := ih (action.Handle now build).build failure (by rw [hr])
        have hhead : (returnsInitialization (action.Handle now build)
            || incrementsAttempt (build, action.Handle now build)) = false := by
          simp [returnsInitialization, incrementsAttempt, hr, h, BuildPhaseError,
            BuildPhaseInitialization]
        simp only [hhead]
        simpa using hrest
      · rw [h] at h'
        cases h'
        have hrest := ih (action.Handle now build).build failure (by rw [hr, h])
        have hhead : (returnsInitialization (action.Handle now build)
            || incrementsAttempt (build, action.Handle now build)) = false := by
          simp [returnsInitialization, incrementsAttempt, hr, h]
        simp only [hhead]
        simpa using hrest
      · rw [h] at h'
        cases h'
        have hrest := ih (action.Handle now build).build
          ⟨failure.Reason, failure.Time,
            ⟨failure.Recovery.Attempt + 1, failure.Recovery.AttemptMax, now⟩⟩
          (by rw [hr])
        have hhead : (returnsInitialization (action.Handle now build)
            || incrementsAttempt (build, action.Handle now build)) = true := by
          simp [returnsInitialization, incrementsAttempt, hr, h]
        simp only [hhead]
        simp only [if_true] at hrest ⊢
        have : (failure.Recovery.AttemptMax - (failure.Recovery.Attempt + 1)).toNat + 1
            = (failure.Recovery.AttemptMax - failure.Recovery.Attempt).toNat := by
          omega
        omega

/-- From a record without failure info, a run has at most 5 calls that raise
the attempt count, at most 5 calls on a record `CanHandle` accepts that return
phase `Initialization`, and at most 6 calls that return phase `Initialization`. -/
theorem calls_of_fresh_record (action : errorRecoveryAction) (steps : List RunStep) :
    ∀ build : Build, build.Status.Failure = none →
      List.countP incrementsAttempt (RunCalls action steps build) ≤ 5 ∧
      List.countP (fun c => action.CanHandle c.1 && returnsInitialization c.2)
        (RunCalls action steps build) ≤ 5 ∧
      List.countP (fun c => returnsInitialization c.2)
        (RunCalls action steps build) ≤ 6 := by
  induction steps with
  | nil => intro build _; simp [RunCalls]
  | cons s steps ih =>
    intro build h
    cases s with
    | setPhase phase =>
      simp only [RunCalls]
      exact ih _ h
    | handle now =>
      have hr := Handle_create action now build h
      have hrest := calls_le_attempts_left action steps (action.Handle now build).build
        ⟨build.Status.Error, now, ⟨0, 5, 0⟩⟩ (by rw [hr])
      have hslack : ((5 : Int) - 0).toNat = 5 := by decide
      have hrest' : List.countP
          (fun c => returnsInitialization c.2 || incrementsAttempt c)
          (RunCalls action steps (action.Handle now build).build) ≤ 5 := by
        simpa [hslack] using hrest
      have hinc : List.countP incrementsAttempt
          (RunCalls action steps (action.Handle now build).build) ≤ 5 :=
        le_trans (List.countP_mono_left (fun c _ hc => by simp [hc])) hrest'
      have hret : List.countP (fun c => returnsInitialization c.2)
          (RunCalls action steps (action.Handle now build).build) ≤ 5 :=
        le_trans (List.countP_mono_left (fun c _ hc => by simp [hc])) hrest'
      have hcan : List.countP
          (fun c => action.CanHandle c.1 && returnsInitialization c.2)
          (RunCalls action steps (action.Handle now build).build) ≤ 5 :=
        le_trans (List.countP_mono_left (fun c _ hc => by
          simp only [Bool.and_eq_true] at hc; simp [hc.2])) hrest'
      have hhead1 : incrementsAttempt (build, action.Handle now build) = false := by
        simp [incrementsAttempt, h]
      have hhead2 : (action.CanHandle build
          && returnsInitialization (action.Handle now build)) = false := by
        by_cases hp : build.Status.Phase = BuildPhaseFailed
        · simp [returnsInitialization, hr, hp, BuildPhaseFailed, BuildPhaseInitialization]
        · simp [errorRecoveryAction.CanHandle, hp]
      simp only [RunCalls, List.countP_cons, hhead1, hhead2]
      refine ⟨by simpa using hinc, by simpa using hcan, ?_⟩
      split <;> omega

/-- C13, as the code has it: from a record without failure info, in every run of
`Handle` calls and phase changes, at most 5 calls raise the attempt count, at
most 5 calls made on a record that `CanHandle` accepts return a record with
phase `Initialization`, and at most 6 calls in all return one (the extra one
records the failure of a record that already is in phase `Initialization`);
and once the attempt count equals the cap, no later call returns phase
`Initialization` or raises the attempt count. -/
theorem C13_retry_cap (action : errorRecoveryAction) (steps : List RunStep)
    (build : Build) (h : build.Status.Failure = none) :
    List.countP incrementsAttempt (RunCalls action steps build) ≤ 5 ∧
    List.countP (fun c => action.CanHandle c.1 && returnsInitialization c.2)
      (RunCalls action steps build) ≤ 5 ∧
    List.countP (fun c => returnsInitialization c.2)
      (RunCalls action steps build) ≤ 6 ∧
    ∀ (before after : List RunStep) (failure : Failure),
      steps = before ++ after →
      (Run action before build).Status.Failure = some failure →
      failure.Recovery.Attempt = failure.Recovery.AttemptMax →
      ∀ c ∈ RunCalls action after (Run action before build),
        returnsInitialization c.2 = false ∧ incrementsAttempt c = false := by
  obtain ⟨hinc, hcan, hret⟩ := calls_of_fresh_record action steps build h
  refine ⟨hinc, hcan, hret, ?_⟩
  intro before after failure _ hf hcap c hc
  have hzero := calls_le_attempts_left action after (Run action before build) failure hf
  have hslack : (failure.Recovery.AttemptMax - failure.Recovery.Attempt).toNat = 0 := by
    omega
  rw [hslack, Nat.le_zero, List.countP_eq_zero] at hzero
  have hnot := hzero c hc
  simpa using hnot

/-- C13 on a run of three calls from a fresh `Failed` record: the failure is
recorded, the build is retried, fails again and is retried once more. -/
theorem C13_retry_cap_witness :
    List.countP incrementsAttempt
      (RunCalls newErrorRecoveryAction
        [.handle 100000000000, .handle 200000000000, .setPhase BuildPhaseFailed,
          .handle 300000000000]
        ⟨⟨BuildPhaseFailed, "boom", none⟩⟩) ≤ 5 :=
  (C13_retry_cap newErrorRecoveryAction
    [.handle 100000000000, .handle 200000000000, .setPhase BuildPhaseFailed,
      .handle 300000000000]
    ⟨⟨BuildPhaseFailed, "boom", none⟩⟩ rfl).1

/-- C13 fails as stated: from a record in phase `Initialization` without
failure info, the call that records the failure returns the record, still in
phase `Initialization`, and the five retries that follow return it in phase
`Initialization` too: six calls, not five. -/
theorem C13_six_calls_return_Initialization :
    (⟨⟨BuildPhaseInitialization, "boom", none⟩⟩ : Build).Status.Failure = none ∧
    List.countP (fun c => returnsInitialization c.2)
      (RunCalls newErrorRecoveryAction
        [.handle 100000000000,
          .setPhase BuildPhaseFailed, .handle 200000000000,
          .setPhase BuildPhaseFailed, .handle 300000000000,
          .setPhase BuildPhaseFailed, .handle 400000000000,
          .setPhase BuildPhaseFailed, .handle 500000000000,
          .setPhase BuildPhaseFailed, .handle 600000000000]
        ⟨⟨BuildPhaseInitialization, "boom", none⟩⟩) = 6 ∧
    ¬ List.countP (fun c => returnsInitialization c.2)
      (RunCalls newErrorRecoveryAction
        [.handle 100000000000,
          .setPhase BuildPhaseFailed, .handle 200000000000,
          .setPhase BuildPhaseFailed, .handle 300000000000,
          .setPhase BuildPhaseFailed, .handle 400000000000,
          .setPhase BuildPhaseFailed, .handle 500000000000,
          .setPhase BuildPhaseFailed, .handle 600000000000]
        ⟨⟨BuildPhaseInitialization, "boom", none⟩⟩) ≤ 5 := by
  have hsix : List.countP (fun c => returnsInitialization c.2)
      (RunCalls newErrorRecoveryAction
        [.handle 100000000000,
          .setPhase BuildPhaseFailed, .handle 200000000000,
          .setPhase BuildPhaseFailed, .handle 300000000000,
          .setPhase BuildPhaseFailed, .handle 400000000000,
          .setPhase BuildPhaseFailed, .handle 500000000000,
          .setPhase BuildPhaseFailed, .handle 600000000000]
        ⟨⟨BuildPhaseInitialization, "boom", none⟩⟩) = 6 := by
    norm_num [RunCalls, errorRecoveryAction.Handle, returnsInitialization, lastAttempt,
      Time.IsZero, Since, Duration.Seconds, newErrorRecoveryAction, Backoff.ForAttempt,
      Second, Minute, BuildPhaseInitialization, BuildPhaseFailed]
  refine ⟨rfl, hsix, ?_⟩
  rw [hsix]
  decide

/-! ## Time spent before giving up -/

/-- The sums of the delays of the default policy. -/
theorem default_totalWait :
    totalWait newErrorRecoveryAction.backOff 5 = 135 * Second := by
  norm_num [totalWait, newErrorRecoveryAction, Backoff.ForAttempt, Second, Minute]

/-- A run that never reads the zero instant keeps the episode invariant of the
default policy: cap 5, attempt count = retries so far, at most 5, attempt time
unset before the first retry and afterwards at least the summed delays after
the failure time. -/
theorem episode_invariant (steps : List RunStep) :
    ∀ (build : Build) (failure : Failure) (n : Nat),
      RunStep.handle 0 ∉ steps →
      build.Status.Failure = some failure →
      EpisodeAfter failure n →
      ∃ after, (Run newErrorRecoveryAction steps build).Status.Failure = some after ∧
        after.Time = failure.Time ∧
        EpisodeAfter after
          (n + List.countP incrementsAttempt
            (RunCalls newErrorRecoveryAction steps build)) := by
  induction steps with
  | nil =>
    intro build failure n _ h hinv
    exact ⟨failure, h, rfl, by simpa [RunCalls] using hinv⟩
  | cons s steps ih =>
    intro build failure n hclock h hinv
    have hclock' : RunStep.handle 0 ∉ steps := fun hmem =>
      hclock (List.mem_cons_of_mem _ hmem)
    cases s with
    | setPhase phase =>
      simp only [Run, RunStep.apply, RunCalls]
      exact ih _ failure n hclock' h hinv
    | handle now =>
      have hnow : now ≠ 0 := by
        intro hz
        apply hclock
        rw [hz]
        exact List.mem_cons_self _ _
      simp only [Run, RunStep.apply, RunCalls, List.countP_cons]
      rcases Handle_cases newErrorRecoveryAction now build with
        ⟨h', _⟩ | ⟨failure', h', hmax, hr⟩ | ⟨failure', h', hmax, _, hr⟩ |
        ⟨failure', h', hmax, hwait, hr⟩
      · rw [h] at h'
        cases h'
      · rw [h] at h'
        cases h'
        have hhead : incrementsAttempt (build, newErrorRecoveryAction.Handle now build)
            = false := by
          simp [incrementsAttempt, hr, h]
        simp only [hhead]
        simpa using ih (newErrorRecoveryAction.Handle now build).build failure n hclock'
          (by rw [hr]) hinv
      · rw [h] at h'
        cases h'
        have hhead : incrementsAttempt (build, newErrorRecoveryAction.Handle now build)
            = false := by
          simp [incrementsAttempt, hr, h]
        simp only [hhead]
        simpa using ih (newErrorRecoveryAction.Handle now build).build failure n hclock'
          (by rw [hr, h]) hinv
      · rw [h] at h'
        cases h'
        have hhead : incrementsAttempt (build, newErrorRecoveryAction.Handle now build)
            = true := by
          simp [incrementsAttempt, hr, h]
        obtain ⟨hcap, hcount, hle, hunset, hset⟩ := hinv
        have hlt : n < 5 := by omega
        have hnext : EpisodeAfter
            ⟨failure.Reason, failure.Time,
              ⟨failure.Recovery.Attempt + 1, failure.Recovery.AttemptMax, now⟩⟩
            (n + 1) := by
          have hattempt : failure.Recovery.Attempt + 1 = ((n + 1 : Nat) : Int) := by
            push_cast
            omega
          refine ⟨hcap, hattempt, by omega, by omega, ?_⟩
          intro _
          refine ⟨hnow, ?_⟩
          show (failure.Time : ℚ)
              + (totalWait newErrorRecoveryAction.backOff n
                + newErrorRecoveryAction.backOff.ForAttempt (n : Int)) ≤ (now : ℚ)
          rw [hcount] at hwait
          rcases Nat.eq_zero_or_pos n with hn | hn
          · have hlast : lastAttempt failure = failure.Time := by
              simp [lastAttempt, Time.IsZero, hunset hn]
            rw [hlast] at hwait
            subst hn
            simp only [Since, totalWait, Nat.cast_zero] at hwait ⊢
            push_cast at hwait
            linarith
          · obtain ⟨hne, hsum⟩ := hset hn
            have hlast : lastAttempt failure = failure.Recovery.AttemptTime := by
              simp [lastAttempt, Time.IsZero, hne]
            rw [hlast] at hwait
            simp only [Since] at hwait
            push_cast at hwait
            linarith
        obtain ⟨after, hafter, htime, hinv'⟩ :=
          ih (newErrorRecoveryAction.Handle now build).build _ (n + 1) hclock'
            (by rw [hr]) hnext
        refine ⟨after, hafter, htime, ?_⟩
        simp only [hhead, if_true]
        have : n + (List.countP incrementsAttempt (RunCalls newErrorRecoveryAction steps
            (newErrorRecoveryAction.Handle now build).build) + 1)
            = n + 1 + List.countP incrementsAttempt (RunCalls newErrorRecoveryAction steps
            (newErrorRecoveryAction.Handle now build).build) := by omega
        rw [this]
        exact hinv'

/-- From a record without failure info, a run that never reads the zero instant
ends in a record without failure info or in an episode whose attempt count is
the number of calls that raised it. -/
theorem fresh_episode (steps : List RunStep) :
    ∀ build : Build, RunStep.handle 0 ∉ steps → build.Status.Failure = none →
      ∀ failure, (Run newErrorRecoveryAction steps build).Status.Failure = some failure →
        EpisodeAfter failure
          (List.countP incrementsAttempt (RunCalls newErrorRecoveryAction steps build)) := by
  induction steps with
  | nil =>
    intro build _ h failure hf
    simp only [Run] at hf
    rw [h] at hf
    cases hf
  | cons s steps ih =>
    intro build hclock h failure hf
    have hclock' : RunStep.handle 0 ∉ steps := fun hmem =>
      hclock (List.mem_cons_of_mem _ hmem)
    cases s with
    | setPhase phase =>
      simp only [Run, RunStep.apply, RunCalls] at hf ⊢
      exact ih { build with Status := { build.Status with Phase := phase } }
        hclock' h failure hf
    | handle now =>
      have hr := Handle_create newErrorRecoveryAction now build h
      have hhead : incrementsAttempt (build, newErrorRecoveryAction.Handle now build)
          = false := by
        simp [incrementsAttempt, h]
      have hstart : EpisodeAfter ⟨build.Status.Error, now, ⟨0, 5, 0⟩⟩ 0 :=
        ⟨rfl, rfl, by decide, fun _ => rfl, fun hpos => absurd hpos (by decide)⟩
      obtain ⟨after, hafter, _, hinv⟩ :=
        episode_invariant steps (newErrorRecoveryAction.Handle now build).build
          ⟨build.Status.Error, now, ⟨0, 5, 0⟩⟩ 0 hclock' (by rw [hr]) hstart
      simp only [Run, RunStep.apply] at hf
      rw [hafter] at hf
      cases hf
      simp only [RunCalls, List.countP_cons, hhead]
      simpa using hinv

/-- C17: from a record without failure info, in every run of `Handle` calls
(default policy, clock readings other than the zero instant, which real clocks
never show) and phase changes, a record with failure info has cap 5 and an
attempt count between 0 and 5 equal to the number of retries made; when the
count is `k ≥ 1` the attempt time is at least `d(0) + ... + d(k-1)` after the
failure time; so a record on which `Handle` gives up is on attempt 5, its
attempt time is at least 135 seconds after the failure time, and exactly 5
retries came before. -/
theorem C17_minimum_wait (steps : List RunStep) (build : Build)
    (h : build.Status.Failure = none) (hclock : RunStep.handle 0 ∉ steps) :
    totalWait newErrorRecoveryAction.backOff 5 = 135 * Second ∧
    ∀ failure, (Run newErrorRecoveryAction steps build).Status.Failure = some failure →
      failure.Recovery.AttemptMax = 5 ∧
      0 ≤ failure.Recovery.Attempt ∧
      failure.Recovery.Attempt ≤ 5 ∧
      failure.Recovery.Attempt
        = (List.countP incrementsAttempt
            (RunCalls newErrorRecoveryAction steps build) : Nat) ∧
      (1 ≤ failure.Recovery.Attempt →
        (failure.Time : ℚ)
            + totalWait newErrorRecoveryAction.backOff failure.Recovery.Attempt.toNat
          ≤ (failure.Recovery.AttemptTime : ℚ)) ∧
      (failure.Recovery.Attempt ≥ failure.Recovery.AttemptMax →
        failure.Recovery.Attempt = 5 ∧
        (failure.Time : ℚ) + 135 * Second ≤ (failure.Recovery.AttemptTime : ℚ) ∧
        List.countP incrementsAttempt
          (RunCalls newErrorRecoveryAction steps build) = 5) := by
  refine ⟨default_totalWait, ?_⟩
  intro failure hf
  obtain ⟨hcap, hcount, hle, _, hset⟩ := fresh_episode steps build hclock h failure hf
  refine ⟨hcap, by omega, by omega, hcount, ?_, ?_⟩
  · intro hpos
    rw [hcount, Int.toNat_ofNat]
    exact (hset (by omega)).2
  · intro hgive
    have hfive : List.countP incrementsAttempt
        (RunCalls newErrorRecoveryAction steps build) = 5 := by omega
    refine ⟨by omega, ?_, hfive⟩
    have hsum := (hset (by omega)).2
    rw [hfive, default_totalWait] at hsum
    exact hsum

/-- C17 on a run that records a failure at 100s and retries five times as
early as the delays allow, each time after the build failed again: the record
ends on attempt 5 with the attempt time exactly 135 seconds after the failure
time. -/
theorem C17_minimum_wait_witness :
    (Run newErrorRecoveryAction
        [.handle 100000000000,
          .handle 105000000000, .setPhase BuildPhaseFailed,
          .handle 115000000000, .setPhase BuildPhaseFailed,
          .handle 135000000000, .setPhase BuildPhaseFailed,
          .handle 175000000000, .setPhase BuildPhaseFailed,
          .handle 235000000000, .setPhase BuildPhaseFailed]
        ⟨⟨BuildPhaseFailed, "boom", none⟩⟩).Status.Failure
      = some ⟨"boom", 100000000000, ⟨5, 5, 235000000000⟩⟩ ∧
    ((100000000000 : Int) : ℚ) + 135 * Second ≤ ((235000000000 : Int) : ℚ) ∧
    List.countP incrementsAttempt
      (RunCalls newErrorRecoveryAction
        [.handle 100000000000,
          .handle 105000000000, .setPhase BuildPhaseFailed,
          .handle 115000000000, .setPhase BuildPhaseFailed,
          .handle 135000000000, .setPhase BuildPhaseFailed,
          .handle 175000000000, .setPhase BuildPhaseFailed,
          .handle 235000000000, .setPhase BuildPhaseFailed]
        ⟨⟨BuildPhaseFailed, "boom", none⟩⟩) = 5 := by
  have hrun : (Run newErrorRecoveryAction
        [.handle 100000000000,
          .handle 105000000000, .setPhase BuildPhaseFailed,
          .handle 115000000000, .setPhase BuildPhaseFailed,
          .handle 135000000000, .setPhase BuildPhaseFailed,
          .handle 175000000000, .setPhase BuildPhaseFailed,
          .handle 235000000000, .setPhase BuildPhaseFailed]
        ⟨⟨BuildPhaseFailed, "boom", none⟩⟩).Status.Failure
      = some ⟨"boom", 100000000000, ⟨5, 5, 235000000000⟩⟩ := by
    norm_num [Run, RunStep.apply, errorRecoveryAction.Handle, lastAttempt,
      Time.IsZero, Since, Duration.Seconds, newErrorRecoveryAction, Backoff.ForAttempt,
      Second, Minute, BuildPhaseInitialization, BuildPhaseFailed]
  exact ⟨hrun,
    (((C17_minimum_wait
      [.handle 100000000000,
        .handle 105000000000, .setPhase BuildPhaseFailed,
        .handle 115000000000, .setPhase BuildPhaseFailed,
        .handle 135000000000, .setPhase BuildPhaseFailed,
        .handle 175000000000, .setPhase BuildPhaseFailed,
        .handle 235000000000, .setPhase BuildPhaseFailed]
      ⟨⟨BuildPhaseFailed, "boom", none⟩⟩ rfl (by decide)).2
        ⟨"boom", 100000000000, ⟨5, 5, 235000000000⟩⟩ hrun).2.2.2.2.2 (by decide)).2⟩

end builder
